import Mathlib

/-!
Shallow embedding of `src/resolve.rs` of kolloch/cargo2nix: resolution of
dependencies and source provenance for `CrateDerivation` records.

The embedding keeps the Rust names where Lean allows it.  External crates
(`std::path`, `url`, `pathdiff`, `serde_json`) are modelled only to the depth
the resolver observes:

* Paths are carried as raw strings (as `PathBuf` stores them); comparison,
  prefix tests and `parent` go through Rust's component view (`Path::components`
  for Unix paths, without the Windows prefix machinery).
* Filesystem canonicalization (`Path::canonicalize`) and `pathdiff::diff_paths`
  are passed in as function parameters, since the first is I/O and the second an
  external pure crate; the theorems quantify over them.
* The `url` crate is modelled for the URL shapes the classifier handles:
  splitting a string into base/query/fragment with a mandatory scheme, and
  `form_urlencoded`-style query-pair splitting; percent-decoding and host
  normalization are not modelled (none of the inputs considered use them).
* Warnings printed with `eprintln!` are returned explicitly: fallible
  constructors return `Except String (α × List String)` where the list holds
  the emitted warning lines.
-/

namespace CargoNix

/-! ## Model of Rust `std::path` (Unix flavour) -/

/-- One component of a path, as in `std::path::Component` (no Windows prefixes). -/
inductive Component where
  | rootDir
  | curDir
  | parentDir
  | normal (s : String)
deriving DecidableEq, Repr

/-- A `PathBuf`: the raw string, as stored by Rust. -/
structure Path where
  s : String
deriving DecidableEq, Repr

/-- Split a character list at every occurrence of `sep`. -/
def splitOnChar (sep : Char) : List Char → List (List Char)
  | [] => [[]]
  | c :: cs =>
    let rest := splitOnChar sep cs
    if c = sep then [] :: rest
    else
      match rest with
      | [] => [[c]]
      | r :: rs => (c :: r) :: rs

/-- `pre` is a literal prefix of `s` (models `str::starts_with`). -/
def strStartsWith (s pre : String) : Bool := pre.data.isPrefixOf s.data

/-- `suf` is a literal suffix of `s` (models `str::ends_with`). -/
def strEndsWith (s suf : String) : Bool := suf.data.isSuffixOf s.data

/-- Components contributed by one path segment that is not the leading one:
`.` is skipped, `..` is a parent marker, anything else a normal component. -/
def componentOfSeg (seg : String) : List Component :=
  if seg = "." then []
  else if seg = ".." then [Component.parentDir]
  else [Component.normal seg]

/-- Rust `Path::components` for Unix paths: empty segments are dropped, `.` is
kept only as a leading component of a relative path, a leading `/` yields
`RootDir`. -/
def Path.components (p : Path) : List Component :=
  let segs := ((splitOnChar '/' p.s.data).map (fun l => String.mk l)).filter (fun t => t ≠ "")
  if strStartsWith p.s "/" then
    Component.rootDir :: segs.flatMap componentOfSeg
  else
    match segs with
    | [] => []
    | first :: rest =>
      (if first = "." then [Component.curDir] else componentOfSeg first)
        ++ rest.flatMap componentOfSeg

/-- `Path::is_absolute` (Unix: starts with the root separator). -/
def Path.isAbsolute (p : Path) : Bool := strStartsWith p.s "/"

/-- Rust `PathBuf` equality (`PartialEq for Path` compares the component views). -/
def pathEq (p q : Path) : Bool := p.components = q.components

/-- Rust `Path.starts_with base`: component-wise prefix test. -/
def Path.starts_with (p base : Path) : Bool := base.components.isPrefixOf p.components

/-- Rust `Path::join` / `PathBuf::push` for Unix paths: an absolute argument
replaces the receiver; otherwise the strings are joined with a separator
unless one is already present. -/
def Path.join (p q : Path) : Path :=
  if q.isAbsolute then q
  else if p.s = "" then q
  else if strEndsWith p.s "/" then ⟨p.s ++ q.s⟩
  else ⟨p.s ++ "/" ++ q.s⟩

/-- Render a component list back to a path string. -/
def joinSegs : List String → String
  | [] => ""
  | [x] => x
  | x :: xs => x ++ "/" ++ joinSegs xs

/-- The string of one component. -/
def componentStr : Component → String
  | Component.rootDir => "/"
  | Component.curDir => "."
  | Component.parentDir => ".."
  | Component.normal s => s

/-- Rebuild a path from components. -/
def renderComponents (cs : List Component) : Path :=
  match cs with
  | Component.rootDir :: rest => ⟨"/" ++ joinSegs (rest.map componentStr)⟩
  | _ => ⟨joinSegs (cs.map componentStr)⟩

/-- Rust `Path::parent`: `none` for an empty path or the bare root, otherwise
the path with its last component dropped. -/
def Path.parent? (p : Path) : Option Path :=
  match p.components with
  | [] => none
  | [Component.rootDir] => none
  | comps => some (renderComponents comps.dropLast)

/-- Rust `Path::strip_prefix`: drop `base`'s components from the front of `p`,
failing when `base` is not a component-wise prefix. -/
def stripPrefixPath (p base : Path) : Option Path :=
  if base.components.isPrefixOf p.components then
    some (renderComponents (p.components.drop base.components.length))
  else none

/-! ## Model of the `url` crate -/

/-- A parsed URL: everything before the query/fragment, plus the optional query
string and fragment. -/
structure Url where
  base : String
  query : Option String
  fragment : Option String
deriving DecidableEq, Repr

/-- Split a character list at the first occurrence of `sep`; the second part is
`none` when `sep` does not occur. -/
def splitFirstChar (sep : Char) : List Char → List Char × Option (List Char)
  | [] => ([], none)
  | c :: cs =>
    if c = sep then ([], some cs)
    else
      let r := splitFirstChar sep cs
      (c :: r.1, r.2)

/-- First character of a URL scheme: an ASCII letter. -/
def isSchemeStart (c : Char) : Bool := c.isAlpha

/-- Subsequent characters of a URL scheme. -/
def isSchemeChar (c : Char) : Bool := c.isAlphanum || c = '+' || c = '-' || c = '.'

/-- Model of `url::Url::parse` for the shapes the classifier meets: the
fragment starts at the first `#`, the query between the first `?` and the
fragment, and a non-empty valid scheme followed by `:` must be present
(otherwise parsing fails, as for Rust's `RelativeUrlWithoutBase`).
Percent-decoding and host normalization are not modelled. -/
def Url.parse (s : String) : Except String Url :=
  let fragSplit := splitFirstChar '#' s.data
  let querySplit := splitFirstChar '?' fragSplit.1
  let schemeSplit := splitFirstChar ':' querySplit.1
  match schemeSplit.2 with
  | none => Except.error "relative URL without a base"
  | some _ =>
    match schemeSplit.1 with
    | [] => Except.error "relative URL without a base"
    | c :: cs =>
      if isSchemeStart c && cs.all isSchemeChar then
        Except.ok
          { base := String.mk querySplit.1
            query := querySplit.2.map String.mk
            fragment := fragSplit.2.map String.mk }
      else Except.error "relative URL without a base"

/-- Model of `Url::query_pairs` (`form_urlencoded`): split the query on `&`,
drop empty segments, split each pair at the first `=` (missing value is the
empty string).  Percent/plus decoding is not modelled. -/
def Url.query_pairs (u : Url) : List (String × String) :=
  match u.query with
  | none => []
  | some q =>
    ((splitOnChar '&' q.data).filter (fun seg => seg ≠ [])).map (fun seg =>
      let kv := splitFirstChar '=' seg
      (String.mk kv.1, String.mk (kv.2.getD [])))

/-- Model of `Iterator::find` on a by-value iterator: returns the first element
satisfying `p` together with the part of the iterator that remains AFTER it;
when nothing matches the iterator is exhausted (`none`). -/
def findConsume (p : String × String → Bool) :
    List (String × String) → Option ((String × String) × List (String × String))
  | [] => none
  | kv :: rest => if p kv then some (kv, rest) else findConsume p rest

/-! ## Data model (`cargo_metadata` inputs, as used by `resolve.rs`) -/

/-- A `cargo_metadata::Source`: its string representation as recorded in the
lock data (`Source::to_string` returns exactly this). -/
structure Source where
  repr : String
deriving DecidableEq, Repr

/-- The provenance string of the default public registry. -/
def cratesIoIndexString : String :=
  "registry+https://github.com/rust-lang/crates.io-index"

/-- Model of `cargo_metadata::Source::is_crates_io`. -/
def Source.isCratesIoRegistry (s : Source) : Bool := s.repr == cratesIoIndexString

/-- `cargo_metadata::DependencyKind`. -/
inductive DependencyKind where
  | normal
  | build
  | dev
  | unknown
deriving DecidableEq, Repr

/-- A declared requirement (`cargo_metadata::Dependency`), with the fields the
resolver reads.  `target` holds the rendered target/cfg expression, if any. -/
structure Dependency where
  name : String
  rename : Option String
  optional : Bool
  uses_default_features : Bool
  features : List String
  target : Option String
  kind : DependencyKind
deriving DecidableEq, Repr

/-- A build target (`cargo_metadata::Target`). -/
structure Target where
  name : String
  kind : List String
  src_path : Path
deriving DecidableEq, Repr

/-- A package record (`cargo_metadata::Package`), with the fields the resolver
reads.  Package identities (`PackageId`) are their representation strings,
ordered as Rust orders them (lexicographically). -/
structure Package where
  id : String
  name : String
  version : String
  edition : String
  authors : List String
  manifest_path : Path
  targets : List Target
  features : List (String × List String)
  dependencies : List Dependency
  source : Option Source
deriving DecidableEq, Repr

/-- One resolved edge of a dependency-graph node (`cargo_metadata::NodeDep`). -/
structure NodeDep where
  pkg : String
deriving DecidableEq, Repr

/-- A dependency-graph node (`cargo_metadata::Node`). -/
structure Node where
  id : String
  deps : List NodeDep
  features : List String
deriving DecidableEq, Repr

/-- Modelled from the spec: the indexed metadata built by the excluded upstream
stage (`crate::metadata::IndexedMetadata`, not under `src/`).  It exposes
identity-to-node and identity-to-package lookups, the optional workspace root
identity and the workspace-member identities, exactly as `resolve.rs` uses
them. -/
structure IndexedMetadata where
  nodes_by_id : String → Option Node
  pkgs_by_id : String → Option Package
  root : Option String
  workspace_members : List String

/-- Modelled from the spec: the configuration (`crate::GenerateConfig`, not
under `src/`); the resolver only reads the path of the generated output file. -/
structure GenerateConfig where
  output : Path

/-- Model of `serde_json::to_string_pretty` on a package: a rendering that
embeds the package record.  Only its presence inside error messages matters. -/
def toStringPrettyPackage (p : Package) : String :=
  "\x7b\n  \x22id\x22: \x22" ++ p.id ++ "\x22,\n  \x22name\x22: \x22" ++ p.name ++ "\x22\n\x7d"

/-- Model of `serde_json::to_string_pretty` on a node. -/
def toStringPrettyNode (n : Node) : String :=
  "\x7b\n  \x22id\x22: \x22" ++ n.id ++ "\x22\n\x7d"

/-! ## `ResolvedSource` and the Source Classifier -/

/-- A build target of a crate (`BuildTarget` of `resolve.rs`). -/
structure BuildTarget where
  name : String
  src_path : Path
deriving DecidableEq, Repr

/-- `BuildTarget::new`: the target's source path with the package directory
stripped as a prefix; fails when the path is not rooted under the package
directory. -/
def BuildTarget.new (target : Target) (package_path : Path) : Except String BuildTarget :=
  match stripPrefixPath target.src_path package_path with
  | some rel => Except.ok { name := target.name, src_path := rel }
  | none => Except.error "prefix not found"

/-- Specifies how to retrieve the source code (`ResolvedSource` of
`resolve.rs`). -/
inductive ResolvedSource where
  | CratesIo (sha256 : Option String)
  | Git (url : Url) (rev : String) (ref : Option String)
  | LocalDirectory (path : Path)
deriving DecidableEq, Repr

/-- `GIT_SOURCE_PREFIX` of `resolve.rs`. -/
def gitSourcePrefixString : String := "git+"

/-- `ResolvedSource::relative_directory`.  `canonicalize` models
`Path::canonicalize` (filesystem I/O) and `diff_paths` models
`pathdiff::diff_paths`; both are passed in as parameters. -/
def relative_directory (canonicalize : Path → Except String Path)
    (diff_paths : Path → Path → Option Path)
    (config : GenerateConfig) (package_path : Path) : Except String Path :=
  match config.output.parent? with
  | none =>
    Except.error ("could not get parent of output file \x27" ++ config.output.s ++ "\x27.")
  | some d0 =>
    -- Deal with "empty" path. E.g. the parent of "Cargo.nix" is "".
    let d1 := if d0.isAbsolute then d0 else Path.join ⟨"."⟩ d0
    match canonicalize d1 with
    | Except.error e =>
      Except.error ("could not canonicalize output file directory \x27" ++ d1.s ++ "\x27: " ++ e)
    | Except.ok out =>
      if pathEq package_path out then Except.ok ⟨"./."⟩
      else
        let path := (diff_paths package_path out).getD package_path
        if pathEq path ⟨"../"⟩ then Except.ok (path.join ⟨"."⟩)
        else if path.starts_with ⟨"../"⟩ then Except.ok path
        else Except.ok (Path.join ⟨"./"⟩ path)

/-- The warning line printed by `ResolvedSource::fallback_to_local_directory`
(`eprintln!` with the original format string). -/
def warningMessage (warning : String) (package : Package) (path : Path) : String :=
  "WARNING: " ++ warning ++ " Falling back to local directory for crate " ++ package.id
    ++ " with source "
    ++ (match package.source with
        | some s => s.repr
        | none => "N/A")
    ++ ": " ++ path.s

/-- `ResolvedSource::fallback_to_local_directory`: relativize the package
directory and return a `LocalDirectory` together with the emitted warning. -/
def fallback_to_local_directory (canonicalize : Path → Except String Path)
    (diff_paths : Path → Path → Option Path) (config : GenerateConfig)
    (package : Package) (package_path : Path) (warning : String) :
    Except String (ResolvedSource × List String) :=
  match relative_directory canonicalize diff_paths config package_path with
  | Except.error e => Except.error e
  | Except.ok path =>
    Except.ok (ResolvedSource.LocalDirectory path, [warningMessage warning package path])

/-- The branch/revision extraction of `ResolvedSource::git_or_local_directory`:
one `query_pairs` iterator is created and BOTH `find` calls run on it, so the
`rev` search only scans what is left after the `branch` search stopped
(nothing at all when no `branch` pair exists). -/
def extractBranchRev (url : Url) : Option String × Option String :=
  let query_pairs := url.query_pairs
  let branchFound := findConsume (fun kv => kv.1 == "branch") query_pairs
  let branch := branchFound.map (fun r => r.1.2)
  let remaining := (branchFound.map (fun r => r.2)).getD []
  let rev :=
    match findConsume (fun kv => kv.1 == "rev") remaining with
    | some r => some r.1.2
    | none => url.fragment
  (branch, rev)

/-- `ResolvedSource::git_or_local_directory`. -/
def ResolvedSource.git_or_local_directory (canonicalize : Path → Except String Path)
    (diff_paths : Path → Path → Option Path) (config : GenerateConfig)
    (package : Package) (package_path : Path) (source : Source) :
    Except String (ResolvedSource × List String) :=
  let source_string := source.repr
  if !strStartsWith source_string gitSourcePrefixString then
    fallback_to_local_directory canonicalize diff_paths config package package_path
      "No \x27git+\x27 prefix found."
  else
    match Url.parse (String.mk (source_string.data.drop gitSourcePrefixString.length)) with
    | Except.error e => Except.error e
    | Except.ok url =>
      let br := extractBranchRev url
      match br.2 with
      | none =>
        fallback_to_local_directory canonicalize diff_paths config package package_path
          "No git revision found."
      | some rev =>
        Except.ok (ResolvedSource.Git { url with query := none, fragment := none } rev br.1, [])

/-- `ResolvedSource::new`. -/
def ResolvedSource.new (canonicalize : Path → Except String Path)
    (diff_paths : Path → Path → Option Path) (config : GenerateConfig)
    (package : Package) (package_path : Path) :
    Except String (ResolvedSource × List String) :=
  match package.source with
  | some source =>
    if source.isCratesIoRegistry then
      -- sha256 will be filled later by prefetch_and_fill_crates_sha256.
      Except.ok (ResolvedSource.CratesIo none, [])
    else
      ResolvedSource.git_or_local_directory canonicalize diff_paths config package
        package_path source
  | none =>
    match relative_directory canonicalize diff_paths config package_path with
    | Except.error e => Except.error e
    | Except.ok path => Except.ok (ResolvedSource.LocalDirectory path, [])

/-! ## The Dependency Matcher -/

/-- The resolved dependencies of one package/crate (`ResolvedDependencies`). -/
structure ResolvedDependencies where
  packages : List Package
  dependencies : List Dependency
deriving Repr

/-- The output record (`ResolvedDependency`). -/
structure ResolvedDependency where
  name : String
  rename : Option String
  package_id : String
  targets : List String
  optional : Bool
  uses_default_features : Bool
  features : List String
deriving DecidableEq, Repr

/-- Normalize a package name such as cargo does (`-` becomes `_`). -/
def normalize_package_name (package_name : String) : String :=
  String.mk (package_name.data.map (fun c => if c = '-' then '_' else c))

/-- Lexicographic less-or-equal on character lists, comparing scalar values:
the model of Rust's bytewise `Ord` on identity strings (identical on the ASCII
identities cargo produces). -/
def charListLe : List Char → List Char → Bool
  | [], _ => true
  | _ :: _, [] => false
  | a :: as, b :: bs =>
    if a.toNat < b.toNat then true
    else if b.toNat < a.toNat then false
    else charListLe as bs

/-- The model of `PackageId::cmp`: bytewise comparison of the representation
strings. -/
def strLe (a b : String) : Bool := charListLe a.data b.data

/-- `charListLe` is total. -/
theorem charListLe_total : ∀ xs ys : List Char,
    charListLe xs ys = true ∨ charListLe ys xs = true := by
  intro xs
  induction xs with
  | nil => intro ys; left; rfl
  | cons a as ih =>
    intro ys
    cases ys with
    | nil => right; rfl
    | cons b bs =>
      rcases Nat.lt_trichotomy a.toNat b.toNat with hlt | heq | hgt
      · left
        simp [charListLe, hlt]
      · rcases ih bs with h | h
        · left
          simp [charListLe, heq, h]
        · right
          simp [charListLe, heq, h]
      · right
        simp [charListLe, hgt]

/-- `charListLe` is transitive. -/
theorem charListLe_trans : ∀ xs ys zs : List Char,
    charListLe xs ys = true → charListLe ys zs = true → charListLe xs zs = true := by
  intro xs
  induction xs with
  | nil => intro ys zs _ _; rfl
  | cons a as ih =>
    intro ys zs h1 h2
    cases ys with
    | nil => exact absurd h1 (by simp [charListLe])
    | cons b bs =>
      cases zs with
      | nil => exact absurd h2 (by simp [charListLe])
      | cons c cs =>
        simp only [charListLe] at h1 h2 ⊢
        by_cases hab : a.toNat < b.toNat
        · by_cases hbc : b.toNat < c.toNat
          · simp [Nat.lt_trans hab hbc]
          · simp only [if_pos hab] at h1
            by_cases hcb : c.toNat < b.toNat
            · simp [hbc, hcb] at h2
            · have hb : b.toNat = c.toNat := Nat.le_antisymm (Nat.le_of_not_lt hcb)
                (Nat.le_of_not_lt hbc)
              simp [hb ▸ hab]
        · by_cases hba : b.toNat < a.toNat
          · simp [hab, hba] at h1
          · have hab2 : a.toNat = b.toNat := Nat.le_antisymm (Nat.le_of_not_lt hba)
              (Nat.le_of_not_lt hab)
            simp only [if_neg hab, if_neg hba] at h1
            by_cases hbc : b.toNat < c.toNat
            · simp [hab2 ▸ hbc]
            · by_cases hcb : c.toNat < b.toNat
              · simp [hbc, hcb] at h2
              · simp only [if_neg hbc, if_neg hcb] at h2
                have hac : ¬ a.toNat < c.toNat := by omega
                have hca : ¬ c.toNat < a.toNat := by omega
                simp [hac, hca, ih bs cs h1 h2]

/-- Ordering used by `packages.sort_by(|p1, p2| p1.id.cmp(&p2.id))`. -/
def pkgLeRel (p1 p2 : Package) : Prop := strLe p1.id p2.id = true

instance : DecidableRel pkgLeRel := fun p1 p2 =>
  (inferInstance : Decidable (strLe p1.id p2.id = true))

instance : IsTotal Package pkgLeRel := ⟨fun a b => charListLe_total a.id.data b.id.data⟩

instance : IsTrans Package pkgLeRel :=
  ⟨fun _ _ _ h1 h2 => charListLe_trans _ _ _ h1 h2⟩

/-- `mapM`-style collection into `Except`, modelling
`collect::<Result<_, Error>>()`: the first failing element's error is
returned. -/
def mapMExcept (f : α → Except String β) : List α → Except String (List β)
  | [] => Except.ok []
  | a :: as =>
    match f a with
    | Except.error e => Except.error e
    | Except.ok b =>
      match mapMExcept f as with
      | Except.error e => Except.error e
      | Except.ok bs => Except.ok (b :: bs)

/-- The per-edge lookup performed inside `ResolvedDependencies::new`: find the
package record for a graph edge's target identity, or fail with the message
that dumps the package and the node. -/
def depLookup (metadata : IndexedMetadata) (package : Package) (node : Node)
    (d : NodeDep) : Except String Package :=
  match metadata.pkgs_by_id d.pkg with
  | none =>
    Except.error ("No matching package for dependency with package id " ++ d.pkg
      ++ " in " ++ package.id ++ ".\n-- Package\n" ++ toStringPrettyPackage package
      ++ "\n-- Node\n" ++ toStringPrettyNode node)
  | some p => Except.ok p

/-- `ResolvedDependencies::new`.  Rust's `sort_by` is a stable sort; it is
modelled by `List.insertionSort` (also stable, hence the same output). -/
def ResolvedDependencies.new (metadata : IndexedMetadata) (package : Package) :
    Except String ResolvedDependencies :=
  match metadata.nodes_by_id package.id with
  | none =>
    Except.error ("Could not find node for " ++ package.id ++ ".\n-- Package\n"
      ++ toStringPrettyPackage package)
  | some node =>
    match mapMExcept (depLookup metadata package node) node.deps with
    | Except.error e => Except.error e
    | Except.ok packages =>
      Except.ok
        { packages := List.insertionSort pkgLeRel packages
          dependencies := package.dependencies }

/-- Model of the `HashMap<String, Vec<&&Dependency>>` built by
`filtered_dependencies`: an association list; each key's list keeps the
declaration order of its pushes (`and_modify(push)` / `or_insert(vec![d])`). -/
def insertDep (m : List (String × List Dependency)) (k : String) (d : Dependency) :
    List (String × List Dependency) :=
  match m with
  | [] => [(k, [d])]
  | (k2, ds) :: rest =>
    if k2 = k then (k2, ds ++ [d]) :: rest else (k2, ds) :: insertDep rest k d

/-- Build the name-to-declarations map from the filtered declaration list. -/
def buildNames (ds : List Dependency) : List (String × List Dependency) :=
  ds.foldl (fun m d => insertDep m (normalize_package_name d.name) d) []

/-- `HashMap::get` on the association list. -/
def lookupNames (m : List (String × List Dependency)) (k : String) : Option (List Dependency) :=
  match m with
  | [] => none
  | (k2, v) :: rest => if k2 = k then some v else lookupNames rest k

/-- `ResolvedDependencies::filtered_dependencies`.  The `some []` case models
`ds[0]` on an empty group, which never happens: every value stored in the map
is non-empty (lemma `lookupNames_buildNames`). -/
def ResolvedDependencies.filtered_dependencies (self : ResolvedDependencies)
    (filter : Dependency → Bool) : List ResolvedDependency :=
  let names := buildNames (self.dependencies.filter filter)
  self.packages.filterMap (fun d =>
    match lookupNames names (normalize_package_name d.name) with
    | none => none
    | some [] => none
    | some (dependency :: rest) =>
      some
        { name := dependency.name
          rename := dependency.rename
          package_id := d.id
          targets := (dependency :: rest).filterMap (fun d2 => d2.target)
          optional := dependency.optional
          uses_default_features := dependency.uses_default_features
          features := dependency.features })

/-! ## The Package Resolver (orchestrator) -/

/-- All data necessary for creating a derivation for a crate
(`CrateDerivation`). -/
structure CrateDerivation where
  package_id : String
  crate_name : String
  edition : String
  authors : List String
  version : String
  source : ResolvedSource
  dependencies : List ResolvedDependency
  build_dependencies : List ResolvedDependency
  features : List (String × List String)
  resolved_default_features : List String
  build : Option BuildTarget
  lib : Option BuildTarget
  has_bin : Bool
  proc_macro : Bool
  is_root_or_workspace_member : Bool
deriving Repr

/-- `CrateDerivation::resolve`.  The two `.expect` panics on the package path
are modelled as errors carrying the panic messages. -/
def CrateDerivation.resolve (canonicalize : Path → Except String Path)
    (diff_paths : Path → Path → Option Path) (config : GenerateConfig)
    (metadata : IndexedMetadata) (package : Package) : Except String CrateDerivation :=
  match ResolvedDependencies.new metadata package with
  | Except.error e => Except.error e
  | Except.ok resolved_dependencies =>
    let build_dependencies := resolved_dependencies.filtered_dependencies
      (fun d => d.kind == DependencyKind.build)
    let dependencies := resolved_dependencies.filtered_dependencies
      (fun d => d.kind == DependencyKind.normal || d.kind == DependencyKind.unknown)
    match package.manifest_path.parent? with
    | none => Except.error "WUUT? No parent directory of manifest?"
    | some parentDir =>
      match canonicalize parentDir with
      | Except.error _ => Except.error "Cannot canonicalize package path"
      | Except.ok package_path =>
        let lib := (package.targets.find? (fun t =>
            t.kind.any (fun k => k == "lib" || k == "proc-macro"))).bind
          (fun target => (BuildTarget.new target package_path).toOption)
        let build := (package.targets.find? (fun t =>
            t.kind.any (fun k => k == "custom-build"))).bind
          (fun target => (BuildTarget.new target package_path).toOption)
        let proc_macro := package.targets.any (fun t => t.kind.any (fun k => k == "proc-macro"))
        let has_bin := package.targets.any (fun t => t.kind.any (fun k => k == "bin"))
        let is_root_or_workspace_member :=
          (metadata.root.toList ++ metadata.workspace_members).any
            (fun pkg_id => pkg_id == package.id)
        match ResolvedSource.new canonicalize diff_paths config package package_path with
        | Except.error e => Except.error e
        | Except.ok sourceAndWarnings =>
          Except.ok
            { package_id := package.id
              crate_name := package.name
              edition := package.edition
              authors := package.authors
              version := package.version
              source := sourceAndWarnings.1
              features := package.features
              resolved_default_features :=
                ((metadata.nodes_by_id package.id).map (fun n => n.features)).getD []
              dependencies := dependencies
              build_dependencies := build_dependencies
              build := build
              lib := lib
              proc_macro := proc_macro
              has_bin := has_bin
              is_root_or_workspace_member := is_root_or_workspace_member }

/-! ## Concrete fixtures used by witnesses and counterexamples -/

/-- A canonicalization that accepts every directory unchanged. -/
def idCanon : Path → Except String Path := fun p => Except.ok p

/-- A `diff_paths` model that never finds a relative path. -/
def noDiff : Path → Path → Option Path := fun _ _ => none

/-- Output file `/pkg/Cargo.nix`, so the output directory is `/pkg`. -/
def cfgSlashPkg : GenerateConfig := ⟨⟨"/pkg/Cargo.nix"⟩⟩

/-- A small package record with the given identity and provenance. -/
def mkPackage (id : String) (src : Option Source) : Package :=
  { id := id
    name := id
    version := "0.1.0"
    edition := "2018"
    authors := []
    manifest_path := ⟨"/pkg/Cargo.toml"⟩
    targets := []
    features := []
    dependencies := []
    source := src }

/-! ## Helper lemmas -/

/-- `fallback_to_local_directory` only ever produces the `LocalDirectory`
variant. -/
theorem fallback_to_local_directory_shape {canonicalize diff_paths config package
    package_path warning x ws}
    (h : fallback_to_local_directory canonicalize diff_paths config package package_path
      warning = Except.ok (x, ws)) :
    ∃ p, x = ResolvedSource.LocalDirectory p := by
  unfold fallback_to_local_directory at h
  split at h
  · exact absurd h (by simp)
  · exact ⟨_, by injection h with h2; exact (congrArg Prod.fst h2).symm⟩

/-! ## Claim C1 -/

/-- Claim C1, evaluated on the code at its own example: with provenance
`git+https://example.com/repo?rev=abc123#branchname` the classifier does NOT
prefer the `rev` query parameter; it returns the fragment `branchname` as the
revision.  Both `find` calls run on one shared `query_pairs` iterator, and the
search for a `branch` parameter exhausts it before the `rev` search starts, so
the explicit `rev=abc123` is never seen. -/
theorem c1_rev_query_parameter_is_lost :
    ResolvedSource.git_or_local_directory idCanon noDiff cfgSlashPkg
      (mkPackage "p 0.1.0" (some ⟨"git+https://example.com/repo?rev=abc123#branchname"⟩))
      ⟨"/pkg"⟩ ⟨"git+https://example.com/repo?rev=abc123#branchname"⟩
    = Except.ok
        (ResolvedSource.Git ⟨"https://example.com/repo", none, none⟩ "branchname" none,
        []) := by
  rfl

/-! ## Claim C2 -/

/-- Claim C2, counterexample: for a provenance string whose remainder after the
`git+` prefix is not a parseable URL, classification does NOT recover to
`LocalDirectory`; the URL parse error is propagated (`url::Url::parse(...)?`). -/
theorem c2_unparseable_url_propagates :
    ResolvedSource.new idCanon noDiff cfgSlashPkg
      (mkPackage "p 0.1.0" (some ⟨"git+not a url"⟩)) ⟨"/pkg"⟩
    = Except.error "relative URL without a base" := by
  rfl

/-- Claim C2 as amended: for a non-registry provenance string the classifier
recovers to `LocalDirectory` — with a warning naming the reason, the package
identity, the original provenance text (or `N/A`), and the chosen path — in
exactly the missing-`git+`-prefix and missing-revision cases; an unparseable
URL after stripping `git+` instead propagates the parse error. -/
theorem c2_fallback_cases (canonicalize : Path → Except String Path)
    (diff_paths : Path → Path → Option Path) (config : GenerateConfig)
    (package : Package) (package_path : Path) (source : Source) (path : Path)
    (hrel : relative_directory canonicalize diff_paths config package_path
      = Except.ok path) :
    (strStartsWith source.repr gitSourcePrefixString = false →
      ResolvedSource.git_or_local_directory canonicalize diff_paths config package
          package_path source
        = Except.ok (ResolvedSource.LocalDirectory path,
            [warningMessage "No \x27git+\x27 prefix found." package path]))
    ∧ (∀ url : Url,
        strStartsWith source.repr gitSourcePrefixString = true →
        Url.parse (String.mk (source.repr.data.drop gitSourcePrefixString.length))
          = Except.ok url →
        (extractBranchRev url).2 = none →
        ResolvedSource.git_or_local_directory canonicalize diff_paths config package
            package_path source
          = Except.ok (ResolvedSource.LocalDirectory path,
              [warningMessage "No git revision found." package path])) := by
  constructor
  · intro hpre
    simp only [ResolvedSource.git_or_local_directory, hpre, Bool.not_false, if_true]
    unfold fallback_to_local_directory
    rw [hrel]
  · intro url hpre hurl hrev
    simp only [ResolvedSource.git_or_local_directory, hpre, Bool.not_true,
      Bool.false_eq_true, if_false, hurl]
    simp only [extractBranchRev] at hrev ⊢
    rw [hrev]
    unfold fallback_to_local_directory
    rw [hrel]

/-- Witness for `c2_fallback_cases`: a provenance without the `git+` prefix
falls back to `LocalDirectory ./.` with the full warning line. -/
theorem c2_fallback_cases_witness :
    ResolvedSource.git_or_local_directory idCanon noDiff cfgSlashPkg
      (mkPackage "p 0.1.0" (some ⟨"path+file:///pkg"⟩)) ⟨"/pkg"⟩ ⟨"path+file:///pkg"⟩
    = Except.ok (ResolvedSource.LocalDirectory ⟨"./."⟩,
        [warningMessage "No \x27git+\x27 prefix found."
          (mkPackage "p 0.1.0" (some ⟨"path+file:///pkg"⟩)) ⟨"./."⟩]) :=
  (c2_fallback_cases idCanon noDiff cfgSlashPkg
      (mkPackage "p 0.1.0" (some ⟨"path+file:///pkg"⟩)) ⟨"/pkg"⟩ ⟨"path+file:///pkg"⟩
      ⟨"./."⟩ (by rfl)).1 (by rfl)

/-! ## Claim C3 -/

/-- Claim C3, counterexample: a `rev` query parameter with an empty value (here
`git+https://example.com/repo?branch=b&rev=`) constructs the `Git` variant with
an EMPTY revision string, refuting the invariant that `Git.rev` is always
non-empty. -/
theorem c3_empty_rev_constructed :
    ResolvedSource.git_or_local_directory idCanon noDiff cfgSlashPkg
      (mkPackage "p 0.1.0" (some ⟨"git+https://example.com/repo?branch=b&rev="⟩))
      ⟨"/pkg"⟩ ⟨"git+https://example.com/repo?branch=b&rev="⟩
    = Except.ok
        (ResolvedSource.Git ⟨"https://example.com/repo", none, none⟩ "" (some "b"),
        []) := by
  rfl

/-- Claim C3 as amended: every `Git` value constructed by the classifier has a
URL carrying no query string and no fragment (`set_query(None)` and
`set_fragment(None)` run unconditionally before construction); the revision
string, however, may be empty. -/
theorem c3_git_url_stripped (canonicalize : Path → Except String Path)
    (diff_paths : Path → Path → Option Path) (config : GenerateConfig)
    (package : Package) (package_path : Path) (source : Source) (u : Url)
    (rev : String) (ref : Option String) (ws : List String)
    (h : ResolvedSource.git_or_local_directory canonicalize diff_paths config package
      package_path source = Except.ok (ResolvedSource.Git u rev ref, ws)) :
    u.query = none ∧ u.fragment = none := by
  simp only [ResolvedSource.git_or_local_directory] at h
  split at h
  · obtain ⟨p, hp⟩ := fallback_to_local_directory_shape h
    exact absurd hp (by simp)
  · split at h
    · exact absurd h (by simp)
    · split at h
      · obtain ⟨p, hp⟩ := fallback_to_local_directory_shape h
        exact absurd hp (by simp)
      · injection h with h2
        have hfst := congrArg Prod.fst h2
        simp only at hfst
        injection hfst with hu _ _
        rw [← hu]
        exact ⟨rfl, rfl⟩

/-- Witness for `c3_git_url_stripped`: the fragment-only example
`git+https://example.com/r2#deadbeef` yields a `Git` whose URL has neither a
query nor a fragment. -/
theorem c3_git_url_stripped_witness :
    (Url.mk "https://example.com/r2" none none).query = none
      ∧ (Url.mk "https://example.com/r2" none none).fragment = none :=
  c3_git_url_stripped idCanon noDiff cfgSlashPkg
    (mkPackage "p 0.1.0" (some ⟨"git+https://example.com/r2#deadbeef"⟩)) ⟨"/pkg"⟩
    ⟨"git+https://example.com/r2#deadbeef"⟩
    ⟨"https://example.com/r2", none, none⟩ "deadbeef" none [] (by rfl)

/-! ## Path lemmas for the Path Relativizer claims -/

/-- An absolute path's component view starts with the root component. -/
theorem components_of_absolute (p : Path) (h : p.isAbsolute = true) :
    ∃ rest, p.components = Component.rootDir :: rest := by
  unfold Path.isAbsolute at h
  simp only [Path.components, h, if_true]
  exact ⟨_, rfl⟩

/-- An absolute path is never component-equal to the bare parent marker. -/
theorem pathEq_parent_of_absolute (p : Path) (h : p.isAbsolute = true) :
    pathEq p ⟨"../"⟩ = false := by
  obtain ⟨rest, hc⟩ := components_of_absolute p h
  unfold pathEq
  rw [hc, show (Path.mk "../").components = [Component.parentDir] from rfl]
  simp

/-- An absolute path never starts with the parent-traversal marker. -/
theorem starts_with_parent_of_absolute (p : Path) (h : p.isAbsolute = true) :
    p.starts_with ⟨"../"⟩ = false := by
  obtain ⟨rest, hc⟩ := components_of_absolute p h
  unfold Path.starts_with
  rw [hc, show (Path.mk "../").components = [Component.parentDir] from rfl]
  simp [List.isPrefixOf]

/-- Joining onto an absolute path replaces the receiver (Rust `Path::join`). -/
theorem join_absolute (p q : Path) (h : q.isAbsolute = true) : Path.join p q = q := by
  unfold Path.join
  rw [h]
  simp

/-- Joining `./` onto a relative path prefixes its string with `./`. -/
theorem join_dotSlash (dp : Path) (h : dp.isAbsolute = false) :
    Path.join ⟨"./"⟩ dp = ⟨"./" ++ dp.s⟩ := by
  unfold Path.join
  rw [h]
  rfl

/-! ## Claim C6 -/

/-- Claim C6: with the output directory resolved (parent of the output file,
anchored when relative, canonicalized to `out`), `relative_directory` returns
the literal `./.` when the package directory equals `out`; otherwise, when the
computed relative path is exactly the bare parent marker `..` it returns
`../.`; when it begins with a parent-traversal component it is returned
unmodified; and in every other case it is prefixed with `./`. -/
theorem c6_relative_directory_cases (canonicalize : Path → Except String Path)
    (diff_paths : Path → Path → Option Path) (config : GenerateConfig)
    (package_path d out : Path)
    (hd : config.output.parent? = some d)
    (hc : canonicalize (if d.isAbsolute then d else Path.join ⟨"."⟩ d) = Except.ok out) :
    (pathEq package_path out = true →
      relative_directory canonicalize diff_paths config package_path = Except.ok ⟨"./."⟩)
    ∧ (pathEq package_path out = false →
        (diff_paths package_path out = some ⟨".."⟩ →
          relative_directory canonicalize diff_paths config package_path
            = Except.ok ⟨"../."⟩)
        ∧ (∀ dp : Path, diff_paths package_path out = some dp →
            pathEq dp ⟨"../"⟩ = false → dp.starts_with ⟨"../"⟩ = true →
            relative_directory canonicalize diff_paths config package_path
              = Except.ok dp)
        ∧ (∀ dp : Path, diff_paths package_path out = some dp →
            pathEq dp ⟨"../"⟩ = false → dp.starts_with ⟨"../"⟩ = false →
            dp.isAbsolute = false →
            relative_directory canonicalize diff_paths config package_path
              = Except.ok ⟨"./" ++ dp.s⟩)) := by
  constructor
  · intro heq
    simp only [relative_directory, hd, hc, heq, if_true]
  · intro hne
    refine ⟨?_, ?_, ?_⟩
    · intro hdiff
      simp only [relative_directory, hd, hc, hne, Bool.false_eq_true, if_false, hdiff,
        Option.getD_some]
      rfl
    · intro dp hdiff h1 h2
      simp only [relative_directory, hd, hc, hne, Bool.false_eq_true, if_false, hdiff,
        Option.getD_some, h1, h2, if_true]
    · intro dp hdiff h1 h2 habs
      simp only [relative_directory, hd, hc, hne, Bool.false_eq_true, if_false, hdiff,
        Option.getD_some, h1, h2]
      exact congrArg Except.ok (join_dotSlash dp habs)

/-- Witness for `c6_relative_directory_cases`: a relative output file
`out/Cargo.nix` anchored to `./out` and canonicalized to `/w/out`; the computed
relative path `../pkg` starts with a parent marker and is returned unmodified. -/
theorem c6_relative_directory_cases_witness :
    relative_directory
      (fun p => if p.s = "./out" then Except.ok ⟨"/w/out"⟩ else Except.error "nofs")
      (fun _ _ => some ⟨"../pkg"⟩) ⟨⟨"out/Cargo.nix"⟩⟩ ⟨"/w/pkg"⟩
    = Except.ok ⟨"../pkg"⟩ :=
  ((c6_relative_directory_cases
      (fun p => if p.s = "./out" then Except.ok ⟨"/w/out"⟩ else Except.error "nofs")
      (fun _ _ => some ⟨"../pkg"⟩) ⟨⟨"out/Cargo.nix"⟩⟩ ⟨"/w/pkg"⟩ ⟨"out"⟩ ⟨"/w/out"⟩
      (by rfl) (by rfl)).2 (by rfl)).2.1 ⟨"../pkg"⟩ (by rfl) (by rfl) (by rfl)

/-! ## Claim C8 -/

/-- Claim C8: for a package with no recorded source provenance,
`ResolvedSource::new` returns the `LocalDirectory` variant whose path is the
Path Relativizer's result against the configured output directory (and no
warning is emitted). -/
theorem c8_no_provenance_local_directory (canonicalize : Path → Except String Path)
    (diff_paths : Path → Path → Option Path) (config : GenerateConfig)
    (package : Package) (package_path : Path) (path : Path)
    (hsrc : package.source = none)
    (hrel : relative_directory canonicalize diff_paths config package_path
      = Except.ok path) :
    ResolvedSource.new canonicalize diff_paths config package package_path
      = Except.ok (ResolvedSource.LocalDirectory path, []) := by
  simp only [ResolvedSource.new, hsrc, hrel]

/-- Witness for `c8_no_provenance_local_directory` at a concrete package with
no provenance. -/
theorem c8_no_provenance_local_directory_witness :
    ResolvedSource.new idCanon noDiff cfgSlashPkg (mkPackage "p 0.1.0" none) ⟨"/pkg"⟩
      = Except.ok (ResolvedSource.LocalDirectory ⟨"./."⟩, []) :=
  c8_no_provenance_local_directory idCanon noDiff cfgSlashPkg
    (mkPackage "p 0.1.0" none) ⟨"/pkg"⟩ ⟨"./."⟩ (by rfl) (by rfl)

/-! ## Claim C10 -/

/-- Claim C10: when the package directory differs from the canonicalized output
directory and `diff_paths` cannot compute a difference (`none`),
`relative_directory` returns the package's absolute path unchanged — so the
path handed to `LocalDirectory` is not guaranteed to be relative.  The final
`./`-prefixing join is a no-op because joining an absolute path replaces the
receiver. -/
theorem c10_diff_paths_none_keeps_absolute (canonicalize : Path → Except String Path)
    (diff_paths : Path → Path → Option Path) (config : GenerateConfig)
    (package_path d out : Path)
    (hd : config.output.parent? = some d)
    (hc : canonicalize (if d.isAbsolute then d else Path.join ⟨"."⟩ d) = Except.ok out)
    (hne : pathEq package_path out = false)
    (hdiff : diff_paths package_path out = none)
    (habs : package_path.isAbsolute = true) :
    relative_directory canonicalize diff_paths config package_path
      = Except.ok package_path := by
  simp only [relative_directory, hd, hc, hne, Bool.false_eq_true, if_false, hdiff,
    Option.getD_none, pathEq_parent_of_absolute package_path habs,
    starts_with_parent_of_absolute package_path habs]
  exact congrArg Except.ok (join_absolute ⟨"./"⟩ package_path habs)

/-- Witness for `c10_diff_paths_none_keeps_absolute`: package directory
`/other`, output directory `/pkg`, no computable difference; the absolute path
`/other` is returned unchanged. -/
theorem c10_diff_paths_none_keeps_absolute_witness :
    relative_directory idCanon noDiff cfgSlashPkg ⟨"/other"⟩ = Except.ok ⟨"/other"⟩ :=
  c10_diff_paths_none_keeps_absolute idCanon noDiff cfgSlashPkg ⟨"/other"⟩ ⟨"/pkg"⟩
    ⟨"/pkg"⟩ (by rfl) (by rfl) (by rfl) (by rfl) (by rfl)

/-! ## Claim C7 -/

/-- If some element of the list fails, `mapMExcept` returns the error of a
failing element (the first one). -/
theorem mapMExcept_error_of_mem {α β : Type} (f : α → Except String β) (l : List α)
    (h : ∃ a ∈ l, ∃ e, f a = Except.error e) :
    ∃ a ∈ l, ∃ e, f a = Except.error e ∧ mapMExcept f l = Except.error e := by
  induction l with
  | nil => simp at h
  | cons x xs ih =>
    cases hx : f x with
    | error e => exact ⟨x, List.mem_cons_self x xs, e, hx, by simp [mapMExcept, hx]⟩
    | ok b =>
      have hxs : ∃ a ∈ xs, ∃ e, f a = Except.error e := by
        obtain ⟨a, ha, e, he⟩ := h
        rcases List.mem_cons.mp ha with rfl | ha2
        · rw [hx] at he; exact absurd he (by simp)
        · exact ⟨a, ha2, e, he⟩
      obtain ⟨a, ha, e, he, hm⟩ := ih hxs
      exact ⟨a, List.mem_cons_of_mem x ha, e, he, by simp [mapMExcept, hx, hm]⟩

/-- Claim C7: a missing dependency-graph node for the package's identity, or a
graph edge whose target identity has no package record, makes
`ResolvedDependencies::new` return a propagated error (an `Except.error`, not a
panic and not a silent skip) whose message embeds the pretty-printed dump of the
offending package — and of the node in the missing-record case. -/
theorem c7_lookup_errors_carry_dumps (metadata : IndexedMetadata) (package : Package) :
    (metadata.nodes_by_id package.id = none →
      ∃ m, ResolvedDependencies.new metadata package = Except.error m
        ∧ ∃ s1 s2, m = s1 ++ toStringPrettyPackage package ++ s2)
    ∧ (∀ node : Node, ∀ d : NodeDep,
        metadata.nodes_by_id package.id = some node → d ∈ node.deps →
        metadata.pkgs_by_id d.pkg = none →
        ∃ m, ResolvedDependencies.new metadata package = Except.error m
          ∧ ∃ s1 s2 s3,
              m = s1 ++ toStringPrettyPackage package ++ s2
                ++ toStringPrettyNode node ++ s3) := by
  constructor
  · intro hnode
    refine ⟨"Could not find node for " ++ package.id ++ ".\n-- Package\n"
      ++ toStringPrettyPackage package, ?_, ?_⟩
    · simp only [ResolvedDependencies.new, hnode]
    · exact ⟨"Could not find node for " ++ package.id ++ ".\n-- Package\n", "", by
        simp [String.append_assoc]⟩
  · intro node d hnode hd hpkg
    have herr : ∃ a ∈ node.deps, ∃ e,
        depLookup metadata package node a = Except.error e :=
      ⟨d, hd, "No matching package for dependency with package id " ++ d.pkg
        ++ " in " ++ package.id ++ ".\n-- Package\n" ++ toStringPrettyPackage package
        ++ "\n-- Node\n" ++ toStringPrettyNode node, by simp only [depLookup, hpkg]⟩
    obtain ⟨a, ha, e, he, hm⟩ :=
      mapMExcept_error_of_mem (depLookup metadata package node) node.deps herr
    cases hp : metadata.pkgs_by_id a.pkg with
    | some p =>
      simp only [depLookup, hp] at he
      exact absurd he (by simp)
    | none =>
      simp only [depLookup, hp] at he
      injection he with he2
      refine ⟨e, ?_, ?_⟩
      · simp only [ResolvedDependencies.new, hnode, hm]
      · refine ⟨"No matching package for dependency with package id " ++ a.pkg ++ " in "
          ++ package.id ++ ".\n-- Package\n", "\n-- Node\n", "", ?_⟩
        rw [← he2]
        simp [String.append_assoc]

/-- Witness for `c7_lookup_errors_carry_dumps`: metadata with no node for the
package yields an error embedding the package dump. -/
theorem c7_lookup_errors_carry_dumps_witness :
    ∃ m, ResolvedDependencies.new ⟨fun _ => none, fun _ => none, none, []⟩
        (mkPackage "p 0.1.0" none) = Except.error m
      ∧ ∃ s1 s2, m = s1 ++ toStringPrettyPackage (mkPackage "p 0.1.0" none) ++ s2 :=
  (c7_lookup_errors_carry_dumps ⟨fun _ => none, fun _ => none, none, []⟩
    (mkPackage "p 0.1.0" none)).1 (by rfl)

/-! ## Claim C9 -/

/-- Claim C9: whenever `CrateDerivation::resolve` succeeds, the resulting
record's `is_root_or_workspace_member` is `true` exactly when the package's
identity equals the metadata's recorded workspace root identity or is contained
in the recorded workspace-member set, and `false` otherwise. -/
theorem c9_root_or_workspace_member (canonicalize : Path → Except String Path)
    (diff_paths : Path → Path → Option Path) (config : GenerateConfig)
    (metadata : IndexedMetadata) (package : Package) (cd : CrateDerivation)
    (h : CrateDerivation.resolve canonicalize diff_paths config metadata package
      = Except.ok cd) :
    cd.is_root_or_workspace_member = true ↔
      metadata.root = some package.id ∨ package.id ∈ metadata.workspace_members := by
  simp only [CrateDerivation.resolve] at h
  split at h
  · exact absurd h (by simp)
  · split at h
    · exact absurd h (by simp)
    · split at h
      · exact absurd h (by simp)
      · split at h
        · exact absurd h (by simp)
        · injection h with h2
          rw [← h2]
          simp [List.any_eq_true, Option.mem_toList, beq_iff_eq]

/-- Metadata for the `c9` witness: a workspace whose root is `root`. -/
def md9 : IndexedMetadata :=
  ⟨fun i => if i = "root" then some ⟨"root", [], []⟩ else none, fun _ => none,
    some "root", []⟩

/-- The record produced by `CrateDerivation.resolve` on the `c9` witness
fixture. -/
def cd9 : CrateDerivation :=
  { package_id := "root"
    crate_name := "root"
    edition := "2018"
    authors := []
    version := "0.1.0"
    source := ResolvedSource.LocalDirectory ⟨"./."⟩
    features := []
    resolved_default_features := []
    dependencies := []
    build_dependencies := []
    build := none
    lib := none
    proc_macro := false
    has_bin := false
    is_root_or_workspace_member := true }

/-- Witness for `c9_root_or_workspace_member`: resolving the workspace root
package succeeds and the flag is characterized as claimed. -/
theorem c9_root_or_workspace_member_witness :
    cd9.is_root_or_workspace_member = true ↔
      md9.root = some "root" ∨ "root" ∈ md9.workspace_members :=
  c9_root_or_workspace_member idCanon noDiff cfgSlashPkg md9 (mkPackage "root" none)
    cd9 (by rfl)

/-! ## Claim C4: the grouping map agrees with declaration-order filtering -/

/-- Looking a key up after one `insertDep`: the inserted declaration is
appended to that key's group and other keys are untouched. -/
theorem lookupNames_insertDep (m : List (String × List Dependency)) (k : String)
    (d : Dependency) (k2 : String) :
    lookupNames (insertDep m k d) k2 =
      if k = k2 then some ((lookupNames m k2).getD [] ++ [d]) else lookupNames m k2 := by
  induction m with
  | nil =>
    simp only [insertDep, lookupNames]
    by_cases h : k = k2 <;> simp [h]
  | cons a rest ih =>
    obtain ⟨ka, va⟩ := a
    simp only [insertDep]
    by_cases hak : ka = k
    · subst hak
      simp only [if_pos rfl, lookupNames]
      by_cases hk2 : ka = k2
      · simp [hk2]
      · simp [hk2]
    · simp only [if_neg hak, lookupNames]
      by_cases hk2 : ka = k2
      · subst hk2
        have hkk : ¬ k = ka := fun h => hak h.symm
        simp [hkk]
      · simp only [if_neg hk2, ih]

/-- The group stored under key `k` after folding a declaration list into the
map is exactly the declaration-order filter of that list by normalized name. -/
theorem lookupNames_foldl (ds : List Dependency) (m : List (String × List Dependency))
    (k : String) :
    lookupNames (ds.foldl (fun m d => insertDep m (normalize_package_name d.name) d) m) k =
      match lookupNames m k with
      | some v => some (v ++ ds.filter (fun d => normalize_package_name d.name == k))
      | none =>
        match ds.filter (fun d => normalize_package_name d.name == k) with
        | [] => none
        | l => some l := by
  induction ds generalizing m with
  | nil =>
    simp only [List.foldl_nil, List.filter_nil]
    cases lookupNames m k <;> simp
  | cons d ds ih =>
    simp only [List.foldl_cons, ih, lookupNames_insertDep, List.filter_cons]
    by_cases hk : normalize_package_name d.name = k
    · simp only [if_pos hk, hk, beq_self_eq_true, if_true]
      cases hm : lookupNames m k with
      | some v => simp
      | none => simp
    · have hbeq : (normalize_package_name d.name == k) = false := by
        simp [hk]
      simp only [if_neg hk, hbeq, Bool.false_eq_true, if_false]

/-- Characterization of `filtered_dependencies`: one output record per resolved
target package whose normalized name has at least one surviving declaration;
the record's scalar fields come from the first declaration in declaration
order, its `targets` are the concatenation, in declaration order, of every
present target expression, and its identity is the target package's. -/
theorem filtered_dependencies_eq (self : ResolvedDependencies)
    (filter : Dependency → Bool) :
    self.filtered_dependencies filter =
      self.packages.filterMap (fun p =>
        match (self.dependencies.filter filter).filter
            (fun d => normalize_package_name d.name == normalize_package_name p.name) with
        | [] => none
        | dependency :: rest =>
          some
            { name := dependency.name
              rename := dependency.rename
              package_id := p.id
              targets := (dependency :: rest).filterMap (fun d2 => d2.target)
              optional := dependency.optional
              uses_default_features := dependency.uses_default_features
              features := dependency.features }) := by
  simp only [ResolvedDependencies.filtered_dependencies, buildNames]
  apply List.filterMap_congr
  intro p hp
  rw [lookupNames_foldl]
  simp only [lookupNames]
  cases hf : (self.dependencies.filter filter).filter
      (fun d => normalize_package_name d.name == normalize_package_name p.name) with
  | nil => simp
  | cons dep rest => simp

/-- Claim C4: when several declared requirements of the selected kind share one
normalized name (`-` mapped to `_`) matching a resolved target package, the
matcher yields exactly one `ResolvedDependency` for that package: its name,
rename, optional, uses_default_features and features come from the first
declaration in declaration order, its `targets` is the concatenation, in
declaration order, of every present target/cfg expression across all the
declarations (no deduplication), and its stored identity is the target
package's.  Stated as: the output has exactly one entry per matched package,
synthesized from the declaration-order group of its normalized name. -/
theorem c4_group_synthesis (self : ResolvedDependencies) (filter : Dependency → Bool) :
    self.filtered_dependencies filter =
      self.packages.filterMap (fun p =>
        match (self.dependencies.filter filter).filter
            (fun d => normalize_package_name d.name == normalize_package_name p.name) with
        | [] => none
        | dependency :: rest =>
          some
            { name := dependency.name
              rename := dependency.rename
              package_id := p.id
              targets := (dependency :: rest).filterMap (fun d2 => d2.target)
              optional := dependency.optional
              uses_default_features := dependency.uses_default_features
              features := dependency.features }) :=
  filtered_dependencies_eq self filter

/-! ## Claim C5 -/

/-- Claim C5: for every metadata/package input on which
`ResolvedDependencies::new` succeeds, and every kind filter, the matcher's
output sequence is ordered by ascending package identity (`strLe`, the model of
`PackageId::cmp`) of the matched target packages — whatever order the
requirements were declared in (the statement quantifies over all declaration
lists). -/
theorem c5_output_sorted_by_package_id (metadata : IndexedMetadata) (package : Package)
    (rd : ResolvedDependencies) (filter : Dependency → Bool)
    (h : ResolvedDependencies.new metadata package = Except.ok rd) :
    ((rd.filtered_dependencies filter).map (fun r => r.package_id)).Pairwise
      (fun a b => strLe a b = true) := by
  have hsorted : rd.packages.Pairwise pkgLeRel := by
    simp only [ResolvedDependencies.new] at h
    split at h
    · exact absurd h (by simp)
    · split at h
      · exact absurd h (by simp)
      · injection h with h2
        rw [← h2]
        exact List.sorted_insertionSort pkgLeRel _
  rw [filtered_dependencies_eq, List.map_filterMap]
  refine List.Pairwise.filterMap _ (fun a a' haa b hb b' hb' => ?_) hsorted
  simp only [Option.mem_def, Option.map_eq_some'] at hb hb'
  obtain ⟨r, hr, hrb⟩ := hb
  obtain ⟨r', hr', hrb'⟩ := hb'
  have hid : r.package_id = a.id := by
    split at hr
    · exact absurd hr (by simp)
    · injection hr with h3
      rw [← h3]
  have hid' : r'.package_id = a'.id := by
    split at hr'
    · exact absurd hr' (by simp)
    · injection hr' with h3
      rw [← h3]
  rw [← hrb, ← hrb', hid, hid']
  exact haa

/-- Declared requirement on crate `a` for the `c5` witness. -/
def depOnA : Dependency := ⟨"a", none, false, true, [], none, DependencyKind.normal⟩

/-- Declared requirement on crate `b` for the `c5` witness. -/
def depOnB : Dependency := ⟨"b", none, false, true, [], none, DependencyKind.normal⟩

/-- Resolved target package `a 1.0` for the `c5` witness. -/
def pkgA : Package := { mkPackage "a 1.0" none with name := "a" }

/-- Resolved target package `b 1.0` for the `c5` witness. -/
def pkgB : Package := { mkPackage "b 1.0" none with name := "b" }

/-- The package under resolution for the `c5` witness: it declares `b` before
`a`, and its graph node lists the edge to `b 1.0` before `a 1.0`. -/
def pkg5 : Package := { mkPackage "p 0.1.0" none with dependencies := [depOnB, depOnA] }

/-- Metadata for the `c5` witness. -/
def md5 : IndexedMetadata :=
  ⟨fun i => if i = "p 0.1.0" then some ⟨"p 0.1.0", [⟨"b 1.0"⟩, ⟨"a 1.0"⟩], []⟩ else none,
    fun i => if i = "a 1.0" then some pkgA else if i = "b 1.0" then some pkgB else none,
    none, []⟩

/-- Witness for `c5_output_sorted_by_package_id`: requirements declared as
`b, a` still yield an output ordered `a 1.0 ≤ b 1.0`. -/
theorem c5_output_sorted_by_package_id_witness :
    (((ResolvedDependencies.mk [pkgA, pkgB] [depOnB, depOnA]).filtered_dependencies
        (fun d => d.kind == DependencyKind.normal
          || d.kind == DependencyKind.unknown)).map
      (fun r => r.package_id)).Pairwise (fun a b => strLe a b = true) :=
  c5_output_sorted_by_package_id md5 pkg5
    (ResolvedDependencies.mk [pkgA, pkgB] [depOnB, depOnA])
    (fun d => d.kind == DependencyKind.normal || d.kind == DependencyKind.unknown)
    (by rfl)

end CargoNix
